import Mathlib

/-!
Verification development for the active-array registry of `pyvista/core/dataset.py`
(class `DataSet`).  The Python class keeps three named-array collections
(point-, cell- and field-associated), a cached active-scalars designation
`_active_scalars_info`, a `_last_active_scalars_name` snapshot, the lazily
created `_active_vectors_info`, and the native VTK active-scalar/vector
selections on the point and cell collections.  All of that state is embedded
in the structure `VDataSet` below, and each Python method is translated into a
pure function threading the state explicitly.  Helpers that live outside this
repository excerpt (`get_array`, `parse_field_choice`, the
`DataSetAttributes` container operations) are modelled from the spec and are
marked as such in their doc comments.
-/

namespace PyVista

/-- Array association constants `POINT_DATA_FIELD` / `CELL_DATA_FIELD` /
`FIELD_DATA_FIELD` used throughout `dataset.py`. -/
inductive FieldAssoc where
  | point
  | cell
  | field
deriving DecidableEq, Repr

/-- Python exception classes raised by the translated methods: `KeyError`
(lookup failure inside `get_array`), `RuntimeError` (`'Data field ... not
usable'`), `NotImplementedError` (`_remove_array` on an unknown association). -/
inductive PyErr where
  | keyError
  | runtimeError
  | notImplementedError
deriving DecidableEq, Repr

/-- Contents of a named array; the registry only moves arrays around, so a
list of integers stands for the numeric payload. -/
abbrev ArrData := List Int

/-- State of one `DataSet` object: the three named-array collections (in
storage order), the native VTK active selections per collection, the cached
`_active_scalars_info`, `_last_active_scalars_name`, and the lazily created
`_active_vectors_info` (`none` models the attribute not existing yet). -/
structure VDataSet where
  pointArrays : List (String × ArrData)
  cellArrays : List (String × ArrData)
  fieldArrays : List (String × ArrData)
  pointActiveScalars : Option String
  cellActiveScalars : Option String
  pointActiveVectors : Option String
  cellActiveVectors : Option String
  activeScalarsInfo : FieldAssoc × Option String
  lastActiveScalarsName : Option String
  activeVectorsInfo : Option (FieldAssoc × Option String)
deriving DecidableEq, Repr

/-- The excluded-name set built inside `DataSet.active_scalars_info`:
`{'__custom_rgba', 'Normals', 'vtkOriginalPointIds', 'TCoords'}`. -/
def excludedNames : List String :=
  ["__custom_rgba", "Normals", "vtkOriginalPointIds", "TCoords"]

/-- Membership test of a named-array collection (VTK `HasArray` by name). -/
def hasName (l : List (String × ArrData)) (n : String) : Bool :=
  l.any (fun p => p.1 == n)

/-- Retrieve the contents of the (first) array with the given name. -/
def lookupArr (l : List (String × ArrData)) (n : String) : Option ArrData :=
  (l.find? (fun p => p.1 == n)).map Prod.snd

/-- Modelled from the spec: removal of the array stored under a name (the
data model states names are unique within a collection, so filtering out
every entry with that name removes exactly the one array).  Used for
`DataSetAttributes.pop` and VTK `RemoveArray`, which are not part of this
excerpt. -/
def removeName (l : List (String × ArrData)) (n : String) : List (String × ArrData) :=
  l.filter (fun p => !(p.1 == n))

/-- Modelled from the spec: insertion of an array under a name
(`DataSetAttributes.__setitem__`, not part of this excerpt).  Per the spec's
rename operation the array is reinserted under the new name; an existing
array of the same name is replaced in place, otherwise the array is appended
in storage order. -/
def setArr : List (String × ArrData) → String → ArrData → List (String × ArrData)
  | [], n, d => [(n, d)]
  | a :: t, n, d => if a.1 == n then (n, d) :: t else a :: setArr t n d

/-- Modelled from the spec: the rename move
`coll[new_name] = coll.pop(old_name)` — remove the array stored under
`old` and reinsert its contents under `new`. -/
def moveArr (l : List (String × ArrData)) (old new : String) :
    List (String × ArrData) :=
  match lookupArr l old with
  | some d => setArr (removeName l old) new d
  | none => l

/-- Python membership test `name in excluded_names` where `name` may be
`None` (`None` is never a member of a set of strings). -/
def nameInExcluded : Option String → Bool
  | none => false
  | some n => excludedNames.contains n

/-- Python truthiness of the value returned by `first_valid_array_name`:
`None` and the empty string are falsy, every other string is truthy. -/
def truthyName : Option String → Bool
  | none => false
  | some s => !(s == "")

/-- The nested helper `first_valid_array_name` of
`DataSet.active_scalars_info`: the first array name of the collection that is
not in the excluded set (`None` if every name is excluded). -/
def first_valid_array_name (arrays : List (String × ArrData)) : Option String :=
  (arrays.find? (fun p => !(excludedNames.contains p.1))).map Prod.fst

/-- `DataSet.n_arrays`: total number of arrays over the point, cell and
field collections. -/
def nArrays (s : VDataSet) : Nat :=
  s.pointArrays.length + s.cellArrays.length + s.fieldArrays.length

/-- The getter `DataSet.active_scalars_info`.  It reads the cached pair,
substitutes the last-known-good name into the local variable when the cached
name is excluded, lazily activates the first valid point (else cell) array
when the (substituted) name is unset, and returns `self._active_scalars_info`
(except in the zero-array early return, which returns the local pair).  The
returned state carries the side effects of the lazy activation. -/
def active_scalars_info (s : VDataSet) : VDataSet × (FieldAssoc × Option String) :=
  let f := s.activeScalarsInfo.1
  let name0 := s.activeScalarsInfo.2
  let name1 := if nameInExcluded name0 then s.lastActiveScalarsName else name0
  match name1 with
  | some _ => (s, s.activeScalarsInfo)
  | none =>
    if nArrays s = 0 then (s, (f, none))
    else
      let ap := first_valid_array_name s.pointArrays
      let ac := first_valid_array_name s.cellArrays
      if truthyName ap then
        let s' := { s with activeScalarsInfo := (FieldAssoc.point, ap),
                           pointActiveScalars := ap }
        (s', s'.activeScalarsInfo)
      else if truthyName ac then
        let s' := { s with activeScalarsInfo := (FieldAssoc.cell, ac),
                           cellActiveScalars := ac }
        (s', s'.activeScalarsInfo)
      else (s, s.activeScalarsInfo)

/-- Modelled from the spec: `get_array(self, name, preference, info=True)`
from `pyvista.utilities` (not part of this excerpt).  Resolution searches
point data, then cell data, then field data; when the name exists in more
than one collection the preferred collection wins if it contains the name.
`none` models the lookup failure for a name absent everywhere. -/
def getArrayField (s : VDataSet) (n : String) (pref : FieldAssoc) : Option FieldAssoc :=
  let inP := hasName s.pointArrays n
  let inC := hasName s.cellArrays n
  let inF := hasName s.fieldArrays n
  let cnt := (if inP then 1 else 0) + (if inC then 1 else 0) + (if inF then 1 else 0)
  let inPref := match pref with
    | FieldAssoc.point => inP
    | FieldAssoc.cell => inC
    | FieldAssoc.field => inF
  if 1 < cnt && inPref then some pref
  else if inP then some FieldAssoc.point
  else if inC then some FieldAssoc.cell
  else if inF then some FieldAssoc.field
  else none

/-- `DataSet.set_active_scalars(name, preference)`.  `name = None` clears the
native selections on both collections and returns immediately; otherwise the
name is resolved (`KeyError` when absent everywhere), the previous active
name — as produced by the `active_scalars_info` read path, side effects
included — is snapshotted into `_last_active_scalars_name`, and either the
resolved collection's native selection plus the cached designation are
updated or a `RuntimeError` is raised for a field-resolved name.  The first
component of the result is the object state after the call, also when an
error is raised. -/
def set_active_scalars (s : VDataSet) (name : Option String) (pref : FieldAssoc) :
    VDataSet × Option PyErr :=
  match name with
  | none => ({ s with cellActiveScalars := none, pointActiveScalars := none }, none)
  | some n =>
    match getArrayField s n pref with
    | none => (s, some PyErr.keyError)
    | some fld =>
      let r := active_scalars_info s
      let s1 := { r.1 with lastActiveScalarsName := r.2.2 }
      match fld with
      | FieldAssoc.point =>
          ({ s1 with pointActiveScalars := some n,
                     activeScalarsInfo := (FieldAssoc.point, some n) }, none)
      | FieldAssoc.cell =>
          ({ s1 with cellActiveScalars := some n,
                     activeScalarsInfo := (FieldAssoc.cell, some n) }, none)
      | FieldAssoc.field => (s1, some PyErr.runtimeError)

/-- `DataSet.set_active_vectors(name, preference)`.  Mirrors
`set_active_scalars` on the vector selections but performs no snapshot and no
`active_scalars_info` read; a field-resolved name raises `RuntimeError`
before `_active_vectors_info` is assigned. -/
def set_active_vectors (s : VDataSet) (name : Option String) (pref : FieldAssoc) :
    VDataSet × Option PyErr :=
  match name with
  | none => ({ s with cellActiveVectors := none, pointActiveVectors := none }, none)
  | some n =>
    match getArrayField s n pref with
    | none => (s, some PyErr.keyError)
    | some FieldAssoc.point =>
        ({ s with pointActiveVectors := some n,
                  activeVectorsInfo := some (FieldAssoc.point, some n) }, none)
    | some FieldAssoc.cell =>
        ({ s with cellActiveVectors := some n,
                  activeVectorsInfo := some (FieldAssoc.cell, some n) }, none)
    | some FieldAssoc.field => (s, some PyErr.runtimeError)

/-- `DataSet.rename_array(old_name, new_name, preference)`: resolve the old
name, move the array inside the resolved collection, and when the
`active_scalars_info` read path (side effects included) reports the old name
as active, re-run `set_active_scalars(new_name, preference=field)`. -/
def rename_array (s : VDataSet) (old new : String) (pref : FieldAssoc) :
    VDataSet × Option PyErr :=
  match getArrayField s old pref with
  | none => (s, some PyErr.keyError)
  | some fld =>
    let s2 :=
      match fld with
      | FieldAssoc.point => { s with pointArrays := moveArr s.pointArrays old new }
      | FieldAssoc.cell => { s with cellArrays := moveArr s.cellArrays old new }
      | FieldAssoc.field => { s with fieldArrays := moveArr s.fieldArrays old new }
    let r := active_scalars_info s2
    if r.2.2 == some old then set_active_scalars r.1 (some new) fld
    else (r.1, none)

/-- The concatenation `field_arrays.keys() + point_arrays.keys() +
cell_arrays.keys()` built by `DataSet.array_names`. -/
def concatNames (s : VDataSet) : List String :=
  s.fieldArrays.map Prod.fst ++ s.pointArrays.map Prod.fst ++ s.cellArrays.map Prod.fst

/-- `DataSet.array_names`: the concatenated name list with the active
scalar's name (as returned by the `active_scalars_info` read path, side
effects included) moved to the front when present; `names.remove` removes the
first occurrence and its `ValueError` for an absent (or `None`) active name
is swallowed. -/
def array_names (s : VDataSet) : VDataSet × List String :=
  let names := concatNames s
  let r := active_scalars_info s
  match r.2.2 with
  | some n => if names.contains n then (r.1, n :: names.erase n) else (r.1, names)
  | none => (r.1, names)

/-- Argument type of `DataSet._remove_array` after `parse_field_choice`:
either one of the three recognized associations or any other value
(`invalid`). -/
inductive FieldChoice where
  | assoc : FieldAssoc → FieldChoice
  | invalid : FieldChoice
deriving DecidableEq, Repr

/-- Modelled from the spec: `parse_field_choice` from `pyvista.utilities`
(not part of this excerpt) normalizes the caller's association choice; with
string spellings already abstracted into `FieldChoice`, it is the identity,
`invalid` standing for any value outside {point, cell, field}. -/
def parse_field_choice (c : FieldChoice) : FieldChoice := c

/-- `DataSet._remove_array(field, name)`: delete the name from the chosen
collection, or raise `NotImplementedError` for an unrecognized association.
No designation state is touched. -/
def remove_array (s : VDataSet) (c : FieldChoice) (n : String) :
    VDataSet × Option PyErr :=
  match parse_field_choice c with
  | FieldChoice.assoc FieldAssoc.point =>
      ({ s with pointArrays := removeName s.pointArrays n }, none)
  | FieldChoice.assoc FieldAssoc.cell =>
      ({ s with cellArrays := removeName s.cellArrays n }, none)
  | FieldChoice.assoc FieldAssoc.field =>
      ({ s with fieldArrays := removeName s.fieldArrays n }, none)
  | FieldChoice.invalid => (s, some PyErr.notImplementedError)

/-- The getter `DataSet.active_vectors_info`: when `_active_vectors_info`
does not exist yet, auto-activate an array named `'Normals'` whenever that
name appears in `array_names` (a read with scalar-side effects of its own),
else initialize the designation to `(POINT_DATA_FIELD, None)`.  Afterwards
the stored designation is returned; the info read off the final state is
`activeVectorsInfo`. -/
def active_vectors_info (s : VDataSet) : VDataSet × Option PyErr :=
  match s.activeVectorsInfo with
  | some _ => (s, none)
  | none =>
    let r := array_names s
    if r.2.contains "Normals" then set_active_vectors r.1 (some "Normals") FieldAssoc.point
    else ({ r.1 with activeVectorsInfo := some (FieldAssoc.point, none) }, none)

end PyVista

namespace PyVista

/-! ### Helper lemmas about the collection operations -/

theorem first_valid_not_excluded {l : List (String × ArrData)} {x : String}
    (h : first_valid_array_name l = some x) : excludedNames.contains x = false := by
  unfold first_valid_array_name at h
  rcases Option.map_eq_some'.1 h with ⟨p, hp, rfl⟩
  have := List.find?_some hp
  simpa using this

theorem first_valid_hasName {l : List (String × ArrData)} {x : String}
    (h : first_valid_array_name l = some x) : hasName l x = true := by
  unfold first_valid_array_name at h
  rcases Option.map_eq_some'.1 h with ⟨p, hp, rfl⟩
  have hmem := List.mem_of_find?_eq_some hp
  unfold hasName
  exact List.any_eq_true.2 ⟨p, hmem, by simp⟩

theorem truthy_first_valid_eq {l : List (String × ArrData)}
    (hne : l.all (fun p => !(p.1 == "")) = true) :
    truthyName (first_valid_array_name l) = !(l.all (fun p => excludedNames.contains p.1)) := by
  induction l with
  | nil => rfl
  | cons a t ih =>
    simp only [List.all_cons, Bool.and_eq_true] at hne
    by_cases hx : excludedNames.contains a.1 = true
    · have hxm : a.1 ∈ excludedNames := by simpa using hx
      have h1 : first_valid_array_name (a :: t) = first_valid_array_name t := by
        unfold first_valid_array_name
        rw [List.find?_cons_of_neg _ (by simp [hxm])]
      rw [h1, ih hne.2, List.all_cons, hx, Bool.true_and]
    · have hx' : excludedNames.contains a.1 = false := by simpa using hx
      have hxm : a.1 ∉ excludedNames := by simpa using hx
      have h1 : first_valid_array_name (a :: t) = some a.1 := by
        unfold first_valid_array_name
        rw [List.find?_cons_of_pos _ (by simp [hxm])]
        rfl
      rw [h1, List.all_cons, hx', Bool.false_and, Bool.not_false]
      simpa [truthyName] using hne.1

theorem hasName_removeName_self (l : List (String × ArrData)) (n : String) :
    hasName (removeName l n) n = false := by
  unfold hasName removeName
  rw [Bool.eq_false_iff]
  intro h
  rcases List.any_eq_true.1 h with ⟨p, hmem, hp⟩
  have h2 := List.of_mem_filter hmem
  simp at h2 hp
  exact h2 hp

theorem hasName_setArr_self (l : List (String × ArrData)) (n : String) (d : ArrData) :
    hasName (setArr l n d) n = true := by
  induction l with
  | nil => simp [setArr, hasName]
  | cons a t ih =>
    by_cases ha : a.1 = n
    · simp [setArr, ha, hasName]
    · have ha' : (a.1 == n) = false := by simp [ha]
      simp only [setArr, ha', Bool.false_eq_true, if_false]
      unfold hasName at ih ⊢
      simp [ih]

theorem lookupArr_setArr_self (l : List (String × ArrData)) (n : String) (d : ArrData) :
    lookupArr (setArr l n d) n = some d := by
  induction l with
  | nil => simp [setArr, lookupArr, List.find?]
  | cons a t ih =>
    by_cases ha : a.1 = n
    · have ha' : (a.1 == n) = true := by simp [ha]
      unfold setArr
      rw [if_pos ha']
      unfold lookupArr
      rw [List.find?_cons_of_pos _ (by simp)]
      rfl
    · have ha' : ¬ ((a.1 == n) = true) := by simp [ha]
      unfold setArr
      rw [if_neg ha']
      unfold lookupArr
      rw [List.find?_cons_of_neg _ (by simp [ha])]
      exact ih

theorem hasName_setArr_ne (l : List (String × ArrData)) {m n : String} (d : ArrData)
    (hmn : m ≠ n) : hasName (setArr l n d) m = hasName l m := by
  have hnm : (n == m) = false := by
    have h1 : ¬ n = m := fun h => hmn h.symm
    simpa using h1
  induction l with
  | nil =>
    simp [setArr, hasName, hnm]
  | cons a t ih =>
    by_cases ha : a.1 = n
    · have ha' : (a.1 == n) = true := by simp [ha]
      unfold setArr
      rw [if_pos ha']
      unfold hasName
      simp only [List.any_cons]
      have h2 : (a.1 == m) = false := by rw [ha]; exact hnm
      simp [hnm, h2]
    · have ha' : ¬ ((a.1 == n) = true) := by simp [ha]
      unfold setArr
      rw [if_neg ha']
      unfold hasName at ih ⊢
      simp only [List.any_cons]
      rw [ih]

theorem hasName_lookup_isSome (l : List (String × ArrData)) (n : String) :
    hasName l n = (lookupArr l n).isSome := by
  induction l with
  | nil => rfl
  | cons a t ih =>
    unfold hasName lookupArr at ih ⊢
    by_cases ha : a.1 = n
    · rw [List.find?_cons_of_pos _ (by simp [ha])]
      simp [ha]
    · rw [List.find?_cons_of_neg _ (by simp [ha])]
      simp only [List.any_cons]
      have ha' : (a.1 == n) = false := by simp [ha]
      rw [ha', Bool.false_or]
      exact ih

theorem getArrayField_point_hasName {s : VDataSet} {n : String} {pref : FieldAssoc}
    (h : getArrayField s n pref = some FieldAssoc.point) : hasName s.pointArrays n = true := by
  cases hp : hasName s.pointArrays n
  · exfalso
    unfold getArrayField at h
    rw [hp] at h
    cases hc : hasName s.cellArrays n <;> rw [hc] at h <;>
      cases hf : hasName s.fieldArrays n <;> rw [hf] at h <;>
        cases pref <;> revert h <;> decide
  · rfl

theorem getArrayField_cell_hasName {s : VDataSet} {n : String} {pref : FieldAssoc}
    (h : getArrayField s n pref = some FieldAssoc.cell) : hasName s.cellArrays n = true := by
  cases hc : hasName s.cellArrays n
  · exfalso
    unfold getArrayField at h
    rw [hc] at h
    cases hp : hasName s.pointArrays n <;> rw [hp] at h <;>
      cases hf : hasName s.fieldArrays n <;> rw [hf] at h <;>
        cases pref <;> revert h <;> decide
  · rfl


/-- Characterization of the `active_scalars_info` read path when the cached
name is unset: the zero-array early return, the point fallback, the cell
fallback, and the no-candidate case. -/
theorem asi_unset_cases (s : VDataSet) (h0 : s.activeScalarsInfo.2 = none) :
    (nArrays s = 0 → active_scalars_info s = (s, (s.activeScalarsInfo.1, none))) ∧
    (nArrays s ≠ 0 → truthyName (first_valid_array_name s.pointArrays) = true →
       active_scalars_info s =
         ({ s with activeScalarsInfo := (FieldAssoc.point, first_valid_array_name s.pointArrays),
                   pointActiveScalars := first_valid_array_name s.pointArrays },
          (FieldAssoc.point, first_valid_array_name s.pointArrays))) ∧
    (nArrays s ≠ 0 → truthyName (first_valid_array_name s.pointArrays) = false →
       truthyName (first_valid_array_name s.cellArrays) = true →
       active_scalars_info s =
         ({ s with activeScalarsInfo := (FieldAssoc.cell, first_valid_array_name s.cellArrays),
                   cellActiveScalars := first_valid_array_name s.cellArrays },
          (FieldAssoc.cell, first_valid_array_name s.cellArrays))) ∧
    (truthyName (first_valid_array_name s.pointArrays) = false →
       truthyName (first_valid_array_name s.cellArrays) = false →
       active_scalars_info s = (s, s.activeScalarsInfo)) := by
  refine ⟨?_, ?_, ?_, ?_⟩
  · intro hz
    simp [active_scalars_info, h0, nameInExcluded, hz]
  · intro hz ht
    simp [active_scalars_info, h0, nameInExcluded, hz, ht]
  · intro hz htp htc
    simp [active_scalars_info, h0, nameInExcluded, hz, htp, htc]
  · intro htp htc
    by_cases hz : nArrays s = 0
    · have hpair : s.activeScalarsInfo = (s.activeScalarsInfo.1, (none : Option String)) := by
        rw [← h0]
      simp only [active_scalars_info, h0, nameInExcluded, hz]
      simp [hpair.symm]
    · simp [active_scalars_info, h0, nameInExcluded, hz, htp, htc]

/-! ### Claim C1 -/

/-- Dataset whose cached active-scalars name is the excluded `'Normals'`
while the last-known-good name `'A'` is set; both arrays live in the point
collection. -/
def c1State : VDataSet :=
  { pointArrays := [("A", [1]), ("Normals", [2])]
    cellArrays := []
    fieldArrays := []
    pointActiveScalars := some "Normals"
    cellActiveScalars := none
    pointActiveVectors := none
    cellActiveVectors := none
    activeScalarsInfo := (FieldAssoc.point, some "Normals")
    lastActiveScalarsName := some "A"
    activeVectorsInfo := none }

/-- C1: counterexample.  At `c1State` the cached name `'Normals'` is excluded
and the last-known-good name `'A'` is set, yet `active_scalars_info` returns
the cached `'Normals'` — not the last-known-good `'A'` the claim promises:
the substitution only writes the local variable that guards the lazy
fallback, while the getter returns `self._active_scalars_info`. -/
theorem C1_counterexample :
    nameInExcluded c1State.activeScalarsInfo.2 = true ∧
    c1State.lastActiveScalarsName = some "A" ∧
    (active_scalars_info c1State).2 = (FieldAssoc.point, some "Normals") ∧
    ¬ ((active_scalars_info c1State).2.2 = c1State.lastActiveScalarsName) := by
  refine ⟨by decide, rfl, by decide, by decide⟩

/-- C1: amended claim.  When the cached active-scalars name is an excluded
name and the last-known-good name is set, `active_scalars_info` returns the
cached designation unchanged (still carrying the excluded name) and performs
no mutation; the last-known-good substitution merely suppresses the lazy
fallback. -/
theorem C1_theorem (s : VDataSet) (l : String)
    (hx : nameInExcluded s.activeScalarsInfo.2 = true)
    (hl : s.lastActiveScalarsName = some l) :
    active_scalars_info s = (s, s.activeScalarsInfo) := by
  simp [active_scalars_info, hx, hl]

/-- C1: witness for the amended claim at `c1State`. -/
theorem C1_witness :
    active_scalars_info c1State = (c1State, c1State.activeScalarsInfo) :=
  C1_theorem c1State "A" (by decide) rfl

/-! ### Claim C5 -/

/-- C5: calling `set_active_scalars` with a name absent from the point, cell
and field collections alike raises `KeyError` (the lookup failure of the
spec-modelled `get_array`) and returns the state completely unchanged — the
failure happens before the snapshot, native-selection update or cache
write. -/
theorem C5_theorem (s : VDataSet) (n : String) (pref : FieldAssoc)
    (hp : hasName s.pointArrays n = false)
    (hc : hasName s.cellArrays n = false)
    (hf : hasName s.fieldArrays n = false) :
    set_active_scalars s (some n) pref = (s, some PyErr.keyError) := by
  have h : getArrayField s n pref = none := by
    unfold getArrayField
    rw [hp, hc, hf]
    cases pref <;> rfl
  simp only [set_active_scalars, h]

/-- Dataset with one point, one cell and one field array, used to witness
C5. -/
def c5State : VDataSet :=
  { pointArrays := [("A", [1])]
    cellArrays := [("B", [2])]
    fieldArrays := [("C", [3])]
    pointActiveScalars := some "A"
    cellActiveScalars := none
    pointActiveVectors := none
    cellActiveVectors := none
    activeScalarsInfo := (FieldAssoc.point, some "A")
    lastActiveScalarsName := none
    activeVectorsInfo := none }

/-- C5: witness — activating the absent name `'missing'` on `c5State` fails
with `KeyError` and leaves the state untouched. -/
theorem C5_witness :
    set_active_scalars c5State (some "missing") FieldAssoc.cell =
      (c5State, some PyErr.keyError) :=
  C5_theorem c5State "missing" FieldAssoc.cell (by decide) (by decide) (by decide)

/-! ### Claim C6 -/

/-- C6: `_remove_array` raises `NotImplementedError` for an association
outside {point, cell, field}, and for each of the three recognized
associations it succeeds without touching the cached active-scalars
designation or the last-known-good name — even when that designation names
the removed array, since `s` ranges over all states. -/
theorem C6_theorem (s : VDataSet) (n : String) :
    remove_array s FieldChoice.invalid n = (s, some PyErr.notImplementedError) ∧
    ∀ fa : FieldAssoc,
      (remove_array s (FieldChoice.assoc fa) n).2 = none ∧
      ((remove_array s (FieldChoice.assoc fa) n).1).activeScalarsInfo = s.activeScalarsInfo ∧
      ((remove_array s (FieldChoice.assoc fa) n).1).lastActiveScalarsName
        = s.lastActiveScalarsName := by
  refine ⟨rfl, ?_⟩
  intro fa
  cases fa <;> exact ⟨rfl, rfl, rfl⟩


/-! ### Claim C2 -/

/-- Spec-side predicate for C2's "a non-excluded array remains in the
dataset", written from the claim's words: some array in any of the three
collections carries a name outside the excluded set. -/
def hasNonExcludedArray (s : VDataSet) : Bool :=
  (s.pointArrays ++ s.cellArrays ++ s.fieldArrays).any
    (fun p => !(excludedNames.contains p.1))

/-- Fresh dataset holding a single non-excluded field array and nothing
else. -/
def c2State : VDataSet :=
  { pointArrays := []
    cellArrays := []
    fieldArrays := [("data", [1])]
    pointActiveScalars := none
    cellActiveScalars := none
    pointActiveVectors := none
    cellActiveVectors := none
    activeScalarsInfo := (FieldAssoc.point, none)
    lastActiveScalarsName := none
    activeVectorsInfo := none }

/-- C2: counterexample.  On `c2State`, `set_active_scalars(None)` clears both
native selections and returns, but the subsequent read returns an unset name
even though the non-excluded field array `'data'` remains in the dataset: the
lazy fallback only ever inspects the point and cell collections, so the
claim's "unset iff no non-excluded array remains" equivalence is false. -/
theorem C2_counterexample :
    (set_active_scalars c2State none FieldAssoc.cell).2 = none ∧
    (set_active_scalars c2State none FieldAssoc.cell).1.pointActiveScalars = none ∧
    (set_active_scalars c2State none FieldAssoc.cell).1.cellActiveScalars = none ∧
    ¬ (((active_scalars_info (set_active_scalars c2State none FieldAssoc.cell).1).2.2 = none) ↔
        hasNonExcludedArray (set_active_scalars c2State none FieldAssoc.cell).1 = false) := by
  refine ⟨rfl, rfl, rfl, ?_⟩
  decide

/-- C2: amended claim.  For a dataset whose point and cell array names are
all nonempty and whose cached active-scalars name is not an excluded name,
`set_active_scalars(None)` clears the native active-scalar selection on both
the point and cell collections, changes nothing else, and returns
immediately; a subsequent `active_scalars_info` read then returns an unset
name iff the cached name was unset and every point- and cell-associated
array name is excluded (field arrays play no part in the fallback). -/
theorem C2_theorem (s : VDataSet) (pref : FieldAssoc)
    (hne : (s.pointArrays ++ s.cellArrays).all (fun p => !(p.1 == "")) = true)
    (hx : nameInExcluded s.activeScalarsInfo.2 = false) :
    set_active_scalars s none pref =
      ({ s with pointActiveScalars := none, cellActiveScalars := none }, none) ∧
    ((active_scalars_info (set_active_scalars s none pref).1).2.2 = none ↔
      (s.activeScalarsInfo.2 = none ∧
       (s.pointArrays ++ s.cellArrays).all (fun p => excludedNames.contains p.1) = true)) := by
  have hfirst : set_active_scalars s none pref =
      ({ s with pointActiveScalars := none, cellActiveScalars := none }, none) := rfl
  refine ⟨hfirst, ?_⟩
  rw [hfirst]
  rw [List.all_append] at hne
  rcases Bool.and_eq_true_iff.1 hne with ⟨hneP, hneC⟩
  cases h0 : s.activeScalarsInfo.2 with
  | some n =>
    have hcont : excludedNames.contains n = false := by
      rw [h0] at hx
      simpa [nameInExcluded] using hx
    have hmem : n ∉ excludedNames := by simpa using hcont
    have hres : (active_scalars_info
        ({ s with pointActiveScalars := none, cellActiveScalars := none } : VDataSet)).2.2
        = some n := by
      simp [active_scalars_info, nameInExcluded, h0, hmem]
    rw [hres]
    constructor
    · intro hfalse
      cases hfalse
    · rintro ⟨hcontra, -⟩
      cases hcontra
  | none =>
    have h0' : (VDataSet.activeScalarsInfo
        { s with pointActiveScalars := none, cellActiveScalars := none }).2 = none := h0
    have hcases := asi_unset_cases
      ({ s with pointActiveScalars := none, cellActiveScalars := none } : VDataSet) h0'
    by_cases hz : nArrays s = 0
    · have hp0 : s.pointArrays = [] := by
        have := hz
        unfold nArrays at this
        exact List.length_eq_zero.1 (by omega)
      have hc0 : s.cellArrays = [] := by
        have := hz
        unfold nArrays at this
        exact List.length_eq_zero.1 (by omega)
      have hres := hcases.1 hz
      rw [hres]
      simp [hp0, hc0]
    · have htp := truthy_first_valid_eq hneP
      have htc := truthy_first_valid_eq hneC
      cases hallP : s.pointArrays.all (fun p => excludedNames.contains p.1) with
      | false =>
        rw [hallP] at htp
        have hres := hcases.2.1 hz (by exact htp)
        rw [hres]
        simp only []
        constructor
        · intro hfalse
          exfalso
          cases hap : first_valid_array_name s.pointArrays with
          | none => rw [hap] at htp; cases htp
          | some x => rw [hap] at hfalse; cases hfalse
        · rintro ⟨-, hall⟩
          rw [List.all_append, hallP] at hall
          cases hall
      | true =>
        rw [hallP] at htp
        simp only [Bool.not_true] at htp
        cases hallC : s.cellArrays.all (fun p => excludedNames.contains p.1) with
        | false =>
          rw [hallC] at htc
          have hres := hcases.2.2.1 hz (by exact htp) (by exact htc)
          rw [hres]
          simp only []
          constructor
          · intro hfalse
            exfalso
            cases hac : first_valid_array_name s.cellArrays with
            | none => rw [hac] at htc; cases htc
            | some x => rw [hac] at hfalse; cases hfalse
          · rintro ⟨-, hall⟩
            rw [List.all_append, hallC] at hall
            simp at hall
        | true =>
          rw [hallC] at htc
          simp only [Bool.not_true] at htc
          have hres := hcases.2.2.2 (by exact htp) (by exact htc)
          rw [hres]
          constructor
          · intro
            exact ⟨rfl, by rw [List.all_append, hallP, hallC]; rfl⟩
          · intro
            exact h0

/-- Dataset with one excluded point array, used to witness the amended C2. -/
def c2WitnessState : VDataSet :=
  { pointArrays := [("Normals", [1])]
    cellArrays := []
    fieldArrays := []
    pointActiveScalars := none
    cellActiveScalars := none
    pointActiveVectors := none
    cellActiveVectors := none
    activeScalarsInfo := (FieldAssoc.point, none)
    lastActiveScalarsName := none
    activeVectorsInfo := none }

/-- C2: witness for the amended claim at `c2WitnessState` — after
deactivation the read returns an unset name, matching the right-hand side
(every point/cell array name excluded). -/
theorem C2_witness :
    set_active_scalars c2WitnessState none FieldAssoc.cell =
      ({ c2WitnessState with pointActiveScalars := none, cellActiveScalars := none }, none) ∧
    ((active_scalars_info (set_active_scalars c2WitnessState none FieldAssoc.cell).1).2.2 = none ↔
      (c2WitnessState.activeScalarsInfo.2 = none ∧
       (c2WitnessState.pointArrays ++ c2WitnessState.cellArrays).all
         (fun p => excludedNames.contains p.1) = true)) :=
  C2_theorem c2WitnessState FieldAssoc.cell (by decide) (by decide)


/-! ### Claim C4 -/

/-- Dataset with a single point array whose name is the empty string and an
unset cached active-scalars designation. -/
def c4State : VDataSet :=
  { pointArrays := [("", [1])]
    cellArrays := []
    fieldArrays := []
    pointActiveScalars := none
    cellActiveScalars := none
    pointActiveVectors := none
    cellActiveVectors := none
    activeScalarsInfo := (FieldAssoc.point, none)
    lastActiveScalarsName := none
    activeVectorsInfo := none }

/-- C4: counterexample.  `c4State` has one array and an unset cached name;
the first (and only) point array name `""` is not in the excluded set, so
the claim's fallback should activate it with point association — but the
getter leaves the designation unset, because the Python truthiness test
`if active_point_array:` rejects the empty string. -/
theorem C4_counterexample :
    c4State.activeScalarsInfo.2 = none ∧
    1 ≤ nArrays c4State ∧
    first_valid_array_name c4State.pointArrays = some "" ∧
    excludedNames.contains "" = false ∧
    active_scalars_info c4State = (c4State, (FieldAssoc.point, none)) ∧
    ¬ ((active_scalars_info c4State).1.activeScalarsInfo = (FieldAssoc.point, some "")) := by
  refine ⟨rfl, by decide, by decide, by decide, by decide, by decide⟩

/-- C4: amended claim.  With at least one array and an unset cached name,
the read activates the first non-excluded point array name provided that
name is truthy (nonempty); only when the point candidate is falsy does it
consider the first non-excluded cell name, again requiring truthiness; when
both candidates are falsy the state is unchanged and the returned name is
unset, with no error.  Whatever name the fallback selects is never an
excluded name. -/
theorem C4_theorem (s : VDataSet)
    (h0 : s.activeScalarsInfo.2 = none) (h1 : 1 ≤ nArrays s) :
    (truthyName (first_valid_array_name s.pointArrays) = true →
       active_scalars_info s =
         ({ s with activeScalarsInfo := (FieldAssoc.point, first_valid_array_name s.pointArrays),
                   pointActiveScalars := first_valid_array_name s.pointArrays },
          (FieldAssoc.point, first_valid_array_name s.pointArrays))) ∧
    (truthyName (first_valid_array_name s.pointArrays) = false →
       truthyName (first_valid_array_name s.cellArrays) = true →
       active_scalars_info s =
         ({ s with activeScalarsInfo := (FieldAssoc.cell, first_valid_array_name s.cellArrays),
                   cellActiveScalars := first_valid_array_name s.cellArrays },
          (FieldAssoc.cell, first_valid_array_name s.cellArrays))) ∧
    (truthyName (first_valid_array_name s.pointArrays) = false →
       truthyName (first_valid_array_name s.cellArrays) = false →
       active_scalars_info s = (s, s.activeScalarsInfo)) ∧
    (∀ x : String, (active_scalars_info s).1.activeScalarsInfo.2 = some x →
       excludedNames.contains x = false) := by
  have hz : nArrays s ≠ 0 := by omega
  have hc := asi_unset_cases s h0
  refine ⟨hc.2.1 hz, hc.2.2.1 hz, hc.2.2.2, ?_⟩
  intro x hx
  by_cases htp : truthyName (first_valid_array_name s.pointArrays) = true
  · have hb := hc.2.1 hz htp
    rw [hb] at hx
    exact first_valid_not_excluded hx
  · have htp' : truthyName (first_valid_array_name s.pointArrays) = false := by
      simpa using htp
    by_cases htc : truthyName (first_valid_array_name s.cellArrays) = true
    · have hb := hc.2.2.1 hz htp' htc
      rw [hb] at hx
      exact first_valid_not_excluded hx
    · have htc' : truthyName (first_valid_array_name s.cellArrays) = false := by
        simpa using htc
      have hb := hc.2.2.2 htp' htc'
      rw [hb] at hx
      have hx' : s.activeScalarsInfo.2 = some x := hx
      rw [h0] at hx'
      cases hx'

/-- Dataset with a single ordinary point array `'A'` and an unset cached
designation, used to witness the amended C4. -/
def c4WitnessState : VDataSet :=
  { pointArrays := [("A", [7])]
    cellArrays := []
    fieldArrays := []
    pointActiveScalars := none
    cellActiveScalars := none
    pointActiveVectors := none
    cellActiveVectors := none
    activeScalarsInfo := (FieldAssoc.point, none)
    lastActiveScalarsName := none
    activeVectorsInfo := none }

/-- C4: witness — the fallback activates `('A', point)` on
`c4WitnessState`. -/
theorem C4_witness :
    active_scalars_info c4WitnessState =
      ({ c4WitnessState with
           activeScalarsInfo :=
             (FieldAssoc.point, first_valid_array_name c4WitnessState.pointArrays),
           pointActiveScalars := first_valid_array_name c4WitnessState.pointArrays },
       (FieldAssoc.point, first_valid_array_name c4WitnessState.pointArrays)) :=
  (C4_theorem c4WitnessState rfl (by decide)).1 (by decide)

/-! ### Claim C7 -/

/-- Refinement definition written from the spec's words for C7: field, then
point, then cell names in storage order, with the active scalar's name (as
produced by the read path) moved to the front when present. -/
def specArrayNames (s : VDataSet) : List String :=
  let names := concatNames s
  match (active_scalars_info s).2.2 with
  | some n => if names.contains n then n :: names.erase n else names
  | none => names

/-- C7: `array_names` produces exactly the spec's ordering — the field ++
point ++ cell concatenation with the active name moved to the front when it
occurs — and its length always equals the sum of the three per-collection
counts (no deduplication of names colliding across collections). -/
theorem C7_theorem (s : VDataSet) :
    (array_names s).2 = specArrayNames s ∧
    (array_names s).2.length =
      s.fieldArrays.length + s.pointArrays.length + s.cellArrays.length := by
  have heq : (array_names s).2 = specArrayNames s := by
    unfold array_names specArrayNames
    cases h : (active_scalars_info s).2.2 with
    | none => simp [h]
    | some n =>
      simp only [h]
      by_cases hmem : n ∈ concatNames s
      · simp [hmem]
      · simp [hmem]
  have hlen : (concatNames s).length =
      s.fieldArrays.length + s.pointArrays.length + s.cellArrays.length := by
    simp [concatNames]
    omega
  refine ⟨heq, ?_⟩
  rw [heq]
  unfold specArrayNames
  cases h : (active_scalars_info s).2.2 with
  | none => simpa using hlen
  | some n =>
    simp only [h]
    by_cases hmem : n ∈ concatNames s
    · have herase := List.length_erase_of_mem hmem
      have hpos : 0 < (concatNames s).length := List.length_pos_of_mem hmem
      simp [hmem, herase]
      omega
    · simpa [hmem] using hlen


/-! ### Claim C3 -/

/-- The collection identified by an association, as a function of the
state. -/
def collectionOf (s : VDataSet) : FieldAssoc → List (String × ArrData)
  | FieldAssoc.point => s.pointArrays
  | FieldAssoc.cell => s.cellArrays
  | FieldAssoc.field => s.fieldArrays

theorem getArrayField_point_self {s : VDataSet} {n : String}
    (h : hasName s.pointArrays n = true) :
    getArrayField s n FieldAssoc.point = some FieldAssoc.point := by
  unfold getArrayField
  rw [h]
  cases hc : hasName s.cellArrays n <;>
    cases hf : hasName s.fieldArrays n <;> decide

theorem getArrayField_cell_self {s : VDataSet} {n : String}
    (h : hasName s.cellArrays n = true) :
    getArrayField s n FieldAssoc.cell = some FieldAssoc.cell := by
  unfold getArrayField
  rw [h]
  cases hp : hasName s.pointArrays n <;>
    cases hf : hasName s.fieldArrays n <;> decide

theorem hasName_moveArr_old {l : List (String × ArrData)} {old new : String}
    (hnn : old ≠ new) (hl : hasName l old = true) :
    hasName (moveArr l old new) old = false := by
  unfold moveArr
  rw [hasName_lookup_isSome] at hl
  cases hd : lookupArr l old with
  | none => rw [hd] at hl; cases hl
  | some d =>
    show hasName (setArr (removeName l old) new d) old = false
    rw [hasName_setArr_ne _ _ hnn]
    exact hasName_removeName_self l old

theorem lookupArr_moveArr_new {l : List (String × ArrData)} {old new : String} {d : ArrData}
    (hd : lookupArr l old = some d) :
    lookupArr (moveArr l old new) new = some d := by
  unfold moveArr
  rw [hd]
  exact lookupArr_setArr_self _ _ _

/-- Dataset whose active name `'A'` collides across the point and cell
collections. -/
def c3State : VDataSet :=
  { pointArrays := [("A", [5])]
    cellArrays := [("A", [7])]
    fieldArrays := []
    pointActiveScalars := none
    cellActiveScalars := some "A"
    pointActiveVectors := none
    cellActiveVectors := none
    activeScalarsInfo := (FieldAssoc.cell, some "A")
    lastActiveScalarsName := none
    activeVectorsInfo := none }

/-- C3: counterexample.  Renaming the active array `'A'` (resolved to the
cell collection under the default cell preference) to `'B'` succeeds and
updates the designation, but the point-collection array also named `'A'`
survives untouched: the claim's "removes old_name from every collection" is
false — only the resolved collection is modified. -/
theorem C3_counterexample :
    c3State.activeScalarsInfo.2 = some "A" ∧
    (rename_array c3State "A" "B" FieldAssoc.cell).2 = none ∧
    (rename_array c3State "A" "B" FieldAssoc.cell).1.activeScalarsInfo
      = (FieldAssoc.cell, some "B") ∧
    hasName (rename_array c3State "A" "B" FieldAssoc.cell).1.pointArrays "A" = true := by
  refine ⟨rfl, by decide, by decide, by decide⟩

/-- C3: amended claim.  If the cached active-scalars name is `old` (a
non-excluded name), `old` resolves to a point or cell association, and
`new ≠ old`, then `rename_array old new` succeeds, updates the cached
designation to `(resolved association, new)`, keeps the array's contents
retrievable unchanged under `new` in the resolved collection, and removes
`old` from that resolved collection — though not necessarily from the other
collections, where a colliding `old` survives. -/
theorem C3_theorem (s : VDataSet) (old new : String) (pref : FieldAssoc)
    (f0 : FieldAssoc) (fld : FieldAssoc)
    (hact : s.activeScalarsInfo = (f0, some old))
    (hexc : excludedNames.contains old = false)
    (hres : getArrayField s old pref = some fld)
    (hfld : fld ≠ FieldAssoc.field)
    (hnn : old ≠ new) :
    (rename_array s old new pref).2 = none ∧
    (rename_array s old new pref).1.activeScalarsInfo = (fld, some new) ∧
    lookupArr (collectionOf (rename_array s old new pref).1 fld) new =
      lookupArr (collectionOf s fld) old ∧
    hasName (collectionOf (rename_array s old new pref).1 fld) old = false := by
  have hmem : old ∉ excludedNames := by simpa using hexc
  cases fld with
  | field => exact absurd rfl hfld
  | point =>
    have hp : hasName s.pointArrays old = true := getArrayField_point_hasName hres
    have hsome : (lookupArr s.pointArrays old).isSome = true := by
      rw [← hasName_lookup_isSome]; exact hp
    rcases Option.isSome_iff_exists.1 hsome with ⟨d, hd⟩
    have hmove : hasName (moveArr s.pointArrays old new) new = true := by
      unfold moveArr
      rw [hd]
      exact hasName_setArr_self _ _ _
    have hgetter : active_scalars_info
        ({ s with pointArrays := moveArr s.pointArrays old new }) =
        ({ s with pointArrays := moveArr s.pointArrays old new }, (f0, some old)) := by
      simp [active_scalars_info, nameInExcluded, hact, hmem]
    have hget2 : getArrayField ({ s with pointArrays := moveArr s.pointArrays old new })
        new FieldAssoc.point = some FieldAssoc.point :=
      getArrayField_point_self hmove
    have hfinal : rename_array s old new pref =
        ({ s with pointArrays := moveArr s.pointArrays old new,
                  lastActiveScalarsName := some old,
                  pointActiveScalars := some new,
                  activeScalarsInfo := (FieldAssoc.point, some new) }, none) := by
      unfold rename_array
      rw [hres]
      simp only [hgetter]
      simp only [set_active_scalars, hget2]
      simp [hgetter]
    rw [hfinal]
    refine ⟨rfl, rfl, ?_, ?_⟩
    · show lookupArr (moveArr s.pointArrays old new) new = lookupArr s.pointArrays old
      rw [hd]
      exact lookupArr_moveArr_new hd
    · show hasName (moveArr s.pointArrays old new) old = false
      exact hasName_moveArr_old hnn hp
  | cell =>
    have hp : hasName s.cellArrays old = true := getArrayField_cell_hasName hres
    have hsome : (lookupArr s.cellArrays old).isSome = true := by
      rw [← hasName_lookup_isSome]; exact hp
    rcases Option.isSome_iff_exists.1 hsome with ⟨d, hd⟩
    have hmove : hasName (moveArr s.cellArrays old new) new = true := by
      unfold moveArr
      rw [hd]
      exact hasName_setArr_self _ _ _
    have hgetter : active_scalars_info
        ({ s with cellArrays := moveArr s.cellArrays old new }) =
        ({ s with cellArrays := moveArr s.cellArrays old new }, (f0, some old)) := by
      simp [active_scalars_info, nameInExcluded, hact, hmem]
    have hget2 : getArrayField ({ s with cellArrays := moveArr s.cellArrays old new })
        new FieldAssoc.cell = some FieldAssoc.cell :=
      getArrayField_cell_self hmove
    have hfinal : rename_array s old new pref =
        ({ s with cellArrays := moveArr s.cellArrays old new,
                  lastActiveScalarsName := some old,
                  cellActiveScalars := some new,
                  activeScalarsInfo := (FieldAssoc.cell, some new) }, none) := by
      unfold rename_array
      rw [hres]
      simp only [hgetter]
      simp only [set_active_scalars, hget2]
      simp [hgetter]
    rw [hfinal]
    refine ⟨rfl, rfl, ?_, ?_⟩
    · show lookupArr (moveArr s.cellArrays old new) new = lookupArr s.cellArrays old
      rw [hd]
      exact lookupArr_moveArr_new hd
    · show hasName (moveArr s.cellArrays old new) old = false
      exact hasName_moveArr_old hnn hp

/-- Dataset with the active point array `'T'` only, used to witness the
amended C3. -/
def c3WitnessState : VDataSet :=
  { pointArrays := [("T", [3])]
    cellArrays := []
    fieldArrays := []
    pointActiveScalars := some "T"
    cellActiveScalars := none
    pointActiveVectors := none
    cellActiveVectors := none
    activeScalarsInfo := (FieldAssoc.point, some "T")
    lastActiveScalarsName := none
    activeVectorsInfo := none }

/-- C3: witness — renaming the active `'T'` to `'U'` tracks the designation,
preserves the contents under the new name and drops the old name from the
resolved (point) collection. -/
theorem C3_witness :
    (rename_array c3WitnessState "T" "U" FieldAssoc.cell).2 = none ∧
    (rename_array c3WitnessState "T" "U" FieldAssoc.cell).1.activeScalarsInfo
      = (FieldAssoc.point, some "U") ∧
    lookupArr (collectionOf (rename_array c3WitnessState "T" "U" FieldAssoc.cell).1
      FieldAssoc.point) "U" = lookupArr (collectionOf c3WitnessState FieldAssoc.point) "T" ∧
    hasName (collectionOf (rename_array c3WitnessState "T" "U" FieldAssoc.cell).1
      FieldAssoc.point) "T" = false :=
  C3_theorem c3WitnessState "T" "U" FieldAssoc.cell FieldAssoc.point FieldAssoc.point
    rfl (by decide) (by decide) (by decide) (by decide)


/-- Shape of any `active_scalars_info` call: the call either leaves the
state unchanged (returning the cached pair or, in the zero-array early
return, the cached association with an unset name), or activates the first
valid point array, or activates the first valid cell array. -/
theorem asi_shape (s : VDataSet) :
    active_scalars_info s = (s, s.activeScalarsInfo) ∨
    active_scalars_info s = (s, (s.activeScalarsInfo.1, none)) ∨
    (∃ x : String, first_valid_array_name s.pointArrays = some x ∧
       active_scalars_info s =
         ({ s with activeScalarsInfo := (FieldAssoc.point, some x),
                   pointActiveScalars := some x }, (FieldAssoc.point, some x))) ∨
    (∃ x : String, first_valid_array_name s.cellArrays = some x ∧
       active_scalars_info s =
         ({ s with activeScalarsInfo := (FieldAssoc.cell, some x),
                   cellActiveScalars := some x }, (FieldAssoc.cell, some x))) := by
  simp only [active_scalars_info]
  cases h1 : (if nameInExcluded s.activeScalarsInfo.2 = true then s.lastActiveScalarsName
              else s.activeScalarsInfo.2) with
  | some v => exact Or.inl rfl
  | none =>
    by_cases hz : nArrays s = 0
    · exact Or.inr (Or.inl (by simp [hz]))
    · by_cases htp : truthyName (first_valid_array_name s.pointArrays) = true
      · cases hap : first_valid_array_name s.pointArrays with
        | none => rw [hap] at htp; cases htp
        | some x =>
          rw [hap] at htp
          refine Or.inr (Or.inr (Or.inl ⟨x, rfl, ?_⟩))
          simp [hz, htp]
      · have htp' : truthyName (first_valid_array_name s.pointArrays) = false := by
          simpa using htp
        by_cases htc : truthyName (first_valid_array_name s.cellArrays) = true
        · cases hac : first_valid_array_name s.cellArrays with
          | none => rw [hac] at htc; cases htc
          | some x =>
            rw [hac] at htc
            refine Or.inr (Or.inr (Or.inr ⟨x, rfl, ?_⟩))
            simp [hz, htp', htc]
        · have htc' : truthyName (first_valid_array_name s.cellArrays) = false := by
            simpa using htc
          exact Or.inl (by simp [hz, htp', htc'])

/-- `active_scalars_info` never changes the three collections nor the
active-vectors designation. -/
theorem asi_preserves (s : VDataSet) :
    (active_scalars_info s).1.pointArrays = s.pointArrays ∧
    (active_scalars_info s).1.cellArrays = s.cellArrays ∧
    (active_scalars_info s).1.fieldArrays = s.fieldArrays ∧
    (active_scalars_info s).1.activeVectorsInfo = s.activeVectorsInfo := by
  rcases asi_shape s with h | h | ⟨x, hx, h⟩ | ⟨x, hx, h⟩ <;> rw [h] <;>
    exact ⟨rfl, rfl, rfl, rfl⟩


/-! ### Claim C8 -/

/-- C8: a name living only in the field collection resolves to the field
association, so `set_active_scalars` fails with the configuration error
`RuntimeError('Data field ... not usable')` — after its snapshot side
effects, which never install the field name as the cached scalars name —
and `set_active_vectors` fails with the same error while leaving the state
entirely unchanged.  Field arrays are never made active scalars or active
vectors. -/
theorem C8_theorem (s : VDataSet) (n : String) (pref : FieldAssoc)
    (hf : hasName s.fieldArrays n = true)
    (hp : hasName s.pointArrays n = false)
    (hc : hasName s.cellArrays n = false)
    (hcur : s.activeScalarsInfo.2 ≠ some n) :
    (set_active_scalars s (some n) pref).2 = some PyErr.runtimeError ∧
    ((set_active_scalars s (some n) pref).1).activeScalarsInfo.2 ≠ some n ∧
    ((set_active_scalars s (some n) pref).1).activeVectorsInfo = s.activeVectorsInfo ∧
    set_active_vectors s (some n) pref = (s, some PyErr.runtimeError) := by
  have hres : getArrayField s n pref = some FieldAssoc.field := by
    unfold getArrayField
    rw [hp, hc, hf]
    cases pref <;> decide
  have hmain : set_active_scalars s (some n) pref =
      ({ (active_scalars_info s).1 with
           lastActiveScalarsName := (active_scalars_info s).2.2 },
       some PyErr.runtimeError) := by
    simp only [set_active_scalars, hres]
  refine ⟨by rw [hmain], ?_, ?_, ?_⟩
  · rw [hmain]
    show ((active_scalars_info s).1).activeScalarsInfo.2 ≠ some n
    rcases asi_shape s with h | h | ⟨x, hx, h⟩ | ⟨x, hx, h⟩
    · rw [h]; exact hcur
    · rw [h]; exact hcur
    · rw [h]
      intro hcontra
      have hxn : x = n := by simpa using hcontra
      rw [hxn] at hx
      have hhas := first_valid_hasName hx
      rw [hp] at hhas
      cases hhas
    · rw [h]
      intro hcontra
      have hxn : x = n := by simpa using hcontra
      rw [hxn] at hx
      have hhas := first_valid_hasName hx
      rw [hc] at hhas
      cases hhas
  · rw [hmain]
    show ((active_scalars_info s).1).activeVectorsInfo = s.activeVectorsInfo
    exact (asi_preserves s).2.2.2
  · simp only [set_active_vectors, hres]

/-- Dataset whose only occurrence of `'F'` is in the field collection. -/
def c8State : VDataSet :=
  { pointArrays := [("A", [1])]
    cellArrays := []
    fieldArrays := [("F", [9])]
    pointActiveScalars := some "A"
    cellActiveScalars := none
    pointActiveVectors := none
    cellActiveVectors := none
    activeScalarsInfo := (FieldAssoc.point, some "A")
    lastActiveScalarsName := none
    activeVectorsInfo := none }

/-- C8: witness — activating the field-only array `'F'` on `c8State` fails
with the configuration error on both the scalar and the vector paths. -/
theorem C8_witness :
    (set_active_scalars c8State (some "F") FieldAssoc.cell).2 = some PyErr.runtimeError ∧
    ((set_active_scalars c8State (some "F") FieldAssoc.cell).1).activeScalarsInfo.2
      ≠ some "F" ∧
    ((set_active_scalars c8State (some "F") FieldAssoc.cell).1).activeVectorsInfo
      = c8State.activeVectorsInfo ∧
    set_active_vectors c8State (some "F") FieldAssoc.cell
      = (c8State, some PyErr.runtimeError) :=
  C8_theorem c8State "F" FieldAssoc.cell (by decide) (by decide) (by decide) (by decide)

/-! ### Claim C9 -/

/-- Dataset whose cached active-scalars name is unset while ordinary point
and cell arrays exist; activating the cell array `'B'` triggers the
snapshot's lazy fallback first. -/
def c9State : VDataSet :=
  { pointArrays := [("A", [1])]
    cellArrays := [("B", [2])]
    fieldArrays := []
    pointActiveScalars := none
    cellActiveScalars := none
    pointActiveVectors := none
    cellActiveVectors := none
    activeScalarsInfo := (FieldAssoc.point, none)
    lastActiveScalarsName := none
    activeVectorsInfo := none }

/-- C9: counterexample.  Activating `'B'` (resolved to the cell collection)
on `c9State` also flips the native *point* active-scalar selection from
unset to `'A'`: the snapshot reads `active_scalars_info`, whose lazy
fallback activates the first point array as a side effect.  The claim's
"updates the native selection on exactly the resolved association's
collection" is therefore false. -/
theorem C9_counterexample :
    getArrayField c9State "B" FieldAssoc.cell = some FieldAssoc.cell ∧
    c9State.pointActiveScalars = none ∧
    (set_active_scalars c9State (some "B") FieldAssoc.cell).2 = none ∧
    (set_active_scalars c9State (some "B") FieldAssoc.cell).1.pointActiveScalars
      = some "A" := by
  refine ⟨by decide, rfl, by decide, by decide⟩

/-- C9: amended claim.  When the cached active-scalars name is already a
set, non-excluded name `old` (so the snapshot's read is pure), activating a
name resolving to point (respectively cell) snapshots `old` into the
last-known-good slot, updates the native selection on exactly the resolved
collection, and caches `(association, name)`; nothing else changes. -/
theorem C9_theorem (s : VDataSet) (n old : String) (pref : FieldAssoc)
    (f0 : FieldAssoc) (fld : FieldAssoc)
    (hact : s.activeScalarsInfo = (f0, some old))
    (hexc : excludedNames.contains old = false)
    (hres : getArrayField s n pref = some fld) :
    (fld = FieldAssoc.point →
      set_active_scalars s (some n) pref =
        ({ s with lastActiveScalarsName := some old,
                  pointActiveScalars := some n,
                  activeScalarsInfo := (FieldAssoc.point, some n) }, none)) ∧
    (fld = FieldAssoc.cell →
      set_active_scalars s (some n) pref =
        ({ s with lastActiveScalarsName := some old,
                  cellActiveScalars := some n,
                  activeScalarsInfo := (FieldAssoc.cell, some n) }, none)) := by
  have hmem : old ∉ excludedNames := by simpa using hexc
  have hgetter : active_scalars_info s = (s, (f0, some old)) := by
    simp [active_scalars_info, nameInExcluded, hact, hmem]
  constructor
  · rintro rfl
    simp only [set_active_scalars, hres, hgetter]
  · rintro rfl
    simp only [set_active_scalars, hres, hgetter]

/-- Dataset with active point scalars `'A'` and a cell array `'B'`. -/
def c9WitnessState : VDataSet :=
  { pointArrays := [("A", [1])]
    cellArrays := [("B", [2])]
    fieldArrays := []
    pointActiveScalars := some "A"
    cellActiveScalars := none
    pointActiveVectors := none
    cellActiveVectors := none
    activeScalarsInfo := (FieldAssoc.point, some "A")
    lastActiveScalarsName := none
    activeVectorsInfo := none }

/-- C9: witness — with a set, non-excluded previous name, activating the
cell array `'B'` snapshots `'A'`, updates only the cell native selection and
caches `(cell, 'B')`. -/
theorem C9_witness :
    set_active_scalars c9WitnessState (some "B") FieldAssoc.cell =
      ({ c9WitnessState with lastActiveScalarsName := some "A",
                             cellActiveScalars := some "B",
                             activeScalarsInfo := (FieldAssoc.cell, some "B") }, none) :=
  (C9_theorem c9WitnessState "B" "A" FieldAssoc.cell FieldAssoc.point FieldAssoc.cell
    rfl (by decide) (by decide)).2 rfl


/-! ### Claim C10 -/

theorem array_names_fst (s : VDataSet) :
    (array_names s).1 = (active_scalars_info s).1 := by
  simp only [array_names]
  cases h : (active_scalars_info s).2.2 with
  | none => rfl
  | some n =>
    show (if (concatNames s).contains n = true
          then ((active_scalars_info s).1, n :: (concatNames s).erase n)
          else ((active_scalars_info s).1, concatNames s)).1 = (active_scalars_info s).1
    split <;> rfl

theorem hasName_iff_mem_map {l : List (String × ArrData)} {x : String} :
    hasName l x = true ↔ x ∈ l.map Prod.fst := by
  unfold hasName
  rw [List.any_eq_true]
  constructor
  · rintro ⟨p, hp, he⟩
    have hpx : p.1 = x := by simpa using he
    exact hpx ▸ List.mem_map_of_mem Prod.fst hp
  · intro hx
    rcases List.mem_map.1 hx with ⟨p, hp, rfl⟩
    exact ⟨p, hp, by simp⟩

theorem mem_array_names {s : VDataSet} {x : String} :
    x ∈ (array_names s).2 ↔ x ∈ concatNames s := by
  simp only [array_names]
  cases h : (active_scalars_info s).2.2 with
  | none => exact Iff.rfl
  | some n =>
    by_cases hmem : n ∈ concatNames s
    · have hc : (concatNames s).contains n = true := by simpa using hmem
      show x ∈ (if (concatNames s).contains n = true
                then ((active_scalars_info s).1, n :: (concatNames s).erase n)
                else ((active_scalars_info s).1, concatNames s)).2 ↔ x ∈ concatNames s
      rw [if_pos hc]
      show x ∈ n :: (concatNames s).erase n ↔ x ∈ concatNames s
      constructor
      · intro hx
        rcases List.mem_cons.1 hx with rfl | hx'
        · exact hmem
        · exact List.mem_of_mem_erase hx'
      · intro hx
        by_cases hxn : x = n
        · subst hxn; exact List.mem_cons_self _ _
        · exact List.mem_cons_of_mem _ ((List.mem_erase_of_ne hxn).2 hx)
    · show x ∈ (if (concatNames s).contains n = true
                then ((active_scalars_info s).1, n :: (concatNames s).erase n)
                else ((active_scalars_info s).1, concatNames s)).2 ↔ x ∈ concatNames s
      rw [if_neg (by simpa using hmem)]

/-- Dataset whose only `'Normals'` array lives in the field collection and
whose active-vectors designation has never been set. -/
def c10State : VDataSet :=
  { pointArrays := []
    cellArrays := []
    fieldArrays := [("Normals", [1])]
    pointActiveScalars := none
    cellActiveScalars := none
    pointActiveVectors := none
    cellActiveVectors := none
    activeScalarsInfo := (FieldAssoc.point, none)
    lastActiveScalarsName := none
    activeVectorsInfo := none }

/-- C10: counterexample.  On `c10State` the name `'Normals'` is present in
the dataset (in the field collection, hence in `array_names`), so the claim
promises the first read auto-activates it as active vectors; instead
`set_active_vectors('Normals')` resolves to the field association and raises
the configuration error, leaving the designation unset. -/
theorem C10_counterexample :
    c10State.activeVectorsInfo = none ∧
    (array_names c10State).2.contains "Normals" = true ∧
    active_vectors_info c10State = (c10State, some PyErr.runtimeError) ∧
    (active_vectors_info c10State).1.activeVectorsInfo = none := by
  refine ⟨rfl, by decide, by decide, by decide⟩

/-- C10: amended claim.  A read with the designation already stored returns
it unchanged without error.  On the first read (no stored designation):
if `'Normals'` exists in the point collection it is auto-activated as
`(point, 'Normals')`; else if it exists in the cell collection, as
`(cell, 'Normals')`; if it appears in no collection the designation is
initialized to `(point, unset)` without error (on the state left by the
embedded `array_names` read).  A `'Normals'` present only in the field
collection instead raises the configuration error (see the
counterexample). -/
theorem C10_theorem (s : VDataSet) :
    (∀ v, s.activeVectorsInfo = some v → active_vectors_info s = (s, none)) ∧
    (s.activeVectorsInfo = none → hasName s.pointArrays "Normals" = true →
       (active_vectors_info s).2 = none ∧
       (active_vectors_info s).1.activeVectorsInfo
         = some (FieldAssoc.point, some "Normals")) ∧
    (s.activeVectorsInfo = none → hasName s.pointArrays "Normals" = false →
       hasName s.cellArrays "Normals" = true →
       (active_vectors_info s).2 = none ∧
       (active_vectors_info s).1.activeVectorsInfo
         = some (FieldAssoc.cell, some "Normals")) ∧
    (s.activeVectorsInfo = none → hasName s.pointArrays "Normals" = false →
       hasName s.cellArrays "Normals" = false → hasName s.fieldArrays "Normals" = false →
       active_vectors_info s =
         ({ (array_names s).1 with
              activeVectorsInfo := some (FieldAssoc.point, none) }, none)) := by
  refine ⟨?_, ?_, ?_, ?_⟩
  · intro v hv
    simp [active_vectors_info, hv]
  · intro hv hpN
    have hmapP : "Normals" ∈ s.pointArrays.map Prod.fst := hasName_iff_mem_map.1 hpN
    have hmemc : "Normals" ∈ concatNames s := by
      unfold concatNames
      simp only [List.mem_append]
      tauto
    have hm : "Normals" ∈ (array_names s).2 := mem_array_names.2 hmemc
    have hmain : active_vectors_info s =
        set_active_vectors ((array_names s).1) (some "Normals") FieldAssoc.point := by
      simp [active_vectors_info, hv, hm]
    have htP : hasName ((array_names s).1).pointArrays "Normals" = true := by
      rw [array_names_fst s, (asi_preserves s).1]
      exact hpN
    have hresolve := getArrayField_point_self htP
    have hsv : set_active_vectors ((array_names s).1) (some "Normals") FieldAssoc.point =
        ({ (array_names s).1 with
             pointActiveVectors := some "Normals",
             activeVectorsInfo := some (FieldAssoc.point, some "Normals") }, none) := by
      simp only [set_active_vectors, hresolve]
    rw [hmain, hsv]
    exact ⟨rfl, rfl⟩
  · intro hv hpN hcN
    have hmapC : "Normals" ∈ s.cellArrays.map Prod.fst := hasName_iff_mem_map.1 hcN
    have hmemc : "Normals" ∈ concatNames s := by
      unfold concatNames
      simp only [List.mem_append]
      tauto
    have hm : "Normals" ∈ (array_names s).2 := mem_array_names.2 hmemc
    have hmain : active_vectors_info s =
        set_active_vectors ((array_names s).1) (some "Normals") FieldAssoc.point := by
      simp [active_vectors_info, hv, hm]
    have htP : hasName ((array_names s).1).pointArrays "Normals" = false := by
      rw [array_names_fst s, (asi_preserves s).1]
      exact hpN
    have htC : hasName ((array_names s).1).cellArrays "Normals" = true := by
      rw [array_names_fst s, (asi_preserves s).2.1]
      exact hcN
    have hresolve : getArrayField ((array_names s).1) "Normals" FieldAssoc.point
        = some FieldAssoc.cell := by
      unfold getArrayField
      rw [htP, htC]
      cases hf' : hasName ((array_names s).1).fieldArrays "Normals" <;> decide
    have hsv : set_active_vectors ((array_names s).1) (some "Normals") FieldAssoc.point =
        ({ (array_names s).1 with
             cellActiveVectors := some "Normals",
             activeVectorsInfo := some (FieldAssoc.cell, some "Normals") }, none) := by
      simp only [set_active_vectors, hresolve]
    rw [hmain, hsv]
    exact ⟨rfl, rfl⟩
  · intro hv hpN hcN hfN
    have hnot : ¬ "Normals" ∈ (array_names s).2 := by
      intro hm
      have hmemc : "Normals" ∈ concatNames s := mem_array_names.1 hm
      unfold concatNames at hmemc
      simp only [List.mem_append] at hmemc
      rcases hmemc with (hf' | hp') | hc'
      · rw [hasName_iff_mem_map.2 hf'] at hfN; cases hfN
      · rw [hasName_iff_mem_map.2 hp'] at hpN; cases hpN
      · rw [hasName_iff_mem_map.2 hc'] at hcN; cases hcN
    simp [active_vectors_info, hv, hnot]

/-- Dataset with a point `'Normals'` array and an unset vectors
designation. -/
def c10WitnessState : VDataSet :=
  { pointArrays := [("Normals", [6])]
    cellArrays := []
    fieldArrays := []
    pointActiveScalars := none
    cellActiveScalars := none
    pointActiveVectors := none
    cellActiveVectors := none
    activeScalarsInfo := (FieldAssoc.point, some "velocity")
    lastActiveScalarsName := none
    activeVectorsInfo := none }

/-- C10: witness — the first read auto-activates the point `'Normals'`
array as the active vectors without error. -/
theorem C10_witness :
    (active_vectors_info c10WitnessState).2 = none ∧
    (active_vectors_info c10WitnessState).1.activeVectorsInfo
      = some (FieldAssoc.point, some "Normals") :=
  (C10_theorem c10WitnessState).2.1 rfl (by decide)

end PyVista
